import Mathlib

/-!
# demo-controller: the Application reconciler

A shallow embedding of `internal/controller/sync.go` and
`internal/controller/controller.go` (with `pkg/apis/application/v1/types.go`).

Conventions of the embedding:

* a Go pointer that may be nil is an `Option` (`*int32`, `*appsv1.Deployment`,
  `*OwnerReference`, `*bool`); dereferencing `none` is a run-time panic, which
  the model reports as `Outcome.panic`;
* a Go `error` value is `Option Error` (`none` is `nil`);
* a Go `map[string]string` literal is the list of its entries;
* `int32` replica counts are `Int` (they are only compared, never computed with);
* the collaborators of the controller (listers, clientsets, work queue, event
  recorder) are interfaces in the source; they are fields of `Controller`, and
  every call made on one of them is appended to `Run.calls`, in order;
* logging (`klog`, `utilruntime.HandleError`) has no effect on any collaborator
  and is left out;
* the library functions the controller calls (`cache.SplitMetaNamespaceKey`,
  `cache.MetaNamespaceKeyFunc`, `metav1.GetControllerOf`,
  `metav1.NewControllerRef`, `errors.IsNotFound`) are written out after
  client-go and apimachinery.
-/

namespace DemoController

/-! ## Kubernetes object model (the fields the controller reads or writes) -/

/-- Go `error` as the controller can observe it: `errors.IsNotFound` or not. -/
inductive Error where
  | notFound (msg : String)
  | other (msg : String)
  deriving DecidableEq, Repr

/-- Go `errors.IsNotFound(err)`. -/
def IsNotFound : Error → Bool
  | .notFound _ => true
  | .other _ => false

/-- Go `schema.GroupVersion`. -/
structure GroupVersion where
  Group : String
  Version : String
  deriving DecidableEq, Repr

/-- Go `GroupVersion.String()`: `group/version`, or `version` for the empty group. -/
def GroupVersionString (gv : GroupVersion) : String :=
  if gv.Group.length > 0 then gv.Group ++ "/" ++ gv.Version else gv.Version

/-- Go `metav1.OwnerReference`. -/
structure OwnerReference where
  APIVersion : String
  Kind : String
  Name : String
  UID : String
  Controller : Option Bool
  BlockOwnerDeletion : Option Bool
  deriving DecidableEq, Repr

/-- Go `metav1.TypeMeta`. -/
structure TypeMeta where
  Kind : String := ""
  APIVersion : String := ""
  deriving DecidableEq, Repr

/-- Go `metav1.ObjectMeta`, restricted to the fields the controller touches. -/
structure ObjectMeta where
  Name : String := ""
  Namespace : String := ""
  SelfLink : String := ""
  UID : String := ""
  ResourceVersion : String := ""
  Labels : List (String × String) := []
  OwnerReferences : List OwnerReference := []
  deriving DecidableEq, Repr

/-- Go `v1.ApplicationSpec` (types.go). -/
structure ApplicationSpec where
  ImageName : String := ""
  Replicas : Option Int := none
  deriving DecidableEq, Repr

/-- Go `v1.ApplicationStatus` (types.go). -/
structure ApplicationStatus where
  DeploymentRefNamespace : String := ""
  DeploymentRefName : String := ""
  deriving DecidableEq, Repr

/-- Go `v1.Application` (types.go). -/
structure Application where
  TypeMeta : TypeMeta := {}
  ObjectMeta : ObjectMeta := {}
  Spec : ApplicationSpec := {}
  Status : ApplicationStatus := {}
  deriving DecidableEq, Repr

/-- Go `corev1.Container`, restricted to name and image. -/
structure Container where
  Name : String := ""
  Image : String := ""
  deriving DecidableEq, Repr

/-- Go `corev1.PodSpec`. -/
structure PodSpec where
  Containers : List Container := []
  deriving DecidableEq, Repr

/-- Go `corev1.PodTemplateSpec`. -/
structure PodTemplateSpec where
  ObjectMeta : ObjectMeta := {}
  Spec : PodSpec := {}
  deriving DecidableEq, Repr

/-- Go `metav1.LabelSelector`. -/
structure LabelSelector where
  MatchLabels : List (String × String) := []
  deriving DecidableEq, Repr

/-- Go `appsv1.DeploymentSpec`. -/
structure DeploymentSpec where
  Replicas : Option Int := none
  Selector : Option LabelSelector := none
  Template : PodTemplateSpec := {}
  deriving DecidableEq, Repr

/-- Go `appsv1.Deployment`; the zero value is `{}`. -/
structure Deployment where
  ObjectMeta : ObjectMeta := {}
  Spec : DeploymentSpec := {}
  deriving DecidableEq, Repr

/-! ## sync.go: the derived child -/

/-- Go `metav1.NewControllerRef(owner, gvk)` for an Application owner. -/
def NewControllerRef (owner : Application) (gv : GroupVersion) (kind : String) :
    OwnerReference :=
  { APIVersion := GroupVersionString gv
    Kind := kind
    Name := owner.ObjectMeta.Name
    UID := owner.ObjectMeta.UID
    BlockOwnerDeletion := some true
    Controller := some true }

/-- Go `NewDeployment` (sync.go 77-110). `SchemeGroupVersion` is the package
variable of `pkg/apis/application/v1`, taken as a parameter. -/
def NewDeployment (SchemeGroupVersion : GroupVersion) (app : Application) : Deployment :=
  let labels := [("controller", app.ObjectMeta.Name)]
  { ObjectMeta :=
      { Name := app.ObjectMeta.Name
        Namespace := app.ObjectMeta.Namespace
        OwnerReferences := [NewControllerRef app SchemeGroupVersion "Application"] }
    Spec :=
      { Replicas := app.Spec.Replicas
        Selector := some { MatchLabels := labels }
        Template :=
          { ObjectMeta := { Labels := labels }
            Spec := { Containers := [{ Name := "main", Image := app.Spec.ImageName }] } } } }

/-- The `for ... range` loop of `mainContainerFromDeploymentTemplate`. -/
def mainContainerLoop : List Container → Container
  | [] => {}
  | d :: rest => if d.Name = "main" then d else mainContainerLoop rest

/-- Go `mainContainerFromDeploymentTemplate` (sync.go 68-75), on a non-nil pointer. -/
def mainContainerFromDeploymentTemplate (deployment : Deployment) : Container :=
  mainContainerLoop deployment.Spec.Template.Spec.Containers

/-! ## Collaborators and the call trace -/

/-- An item handed out by the work queue (`interface{}`): the controller only
ever adds strings, anything else is `other`. -/
inductive Item where
  | str (key : String)
  | other (descr : String)
  deriving DecidableEq, Repr

/-- One call made on a collaborator, with its arguments. -/
inductive Call where
  | GetApplication (ns name : String)
  | GetDeployment (ns name : String)
  | CreateDeployment (ns : String) (d : Deployment)
  | UpdateDeployment (ns : String) (d : Deployment)
  | UpdateStatus (ns : String) (a : Application)
  | Event (a : Application) (eventtype reason message : String)
  | QueueGet
  | QueueAdd (key : String)
  | QueueDone (item : Item)
  | QueueForget (item : Item)
  | QueueAddRateLimited (key : String)
  deriving DecidableEq, Repr

/-- The collaborators held by `Controller` (controller.go 37-49) over a world
state `σ` (API server content, queue content, recorded events).  Listers read
the informer cache and return either an object or an error; a clientset write
returns the Go pair `(result, err)`. -/
structure Controller (σ : Type) where
  ApplicationsLister : String → String → Except Error Application
  DeploymentsLister : String → String → Except Error Deployment
  Create : String → Deployment → σ → (Option Deployment × Option Error) × σ
  Update : String → Deployment → σ → (Option Deployment × Option Error) × σ
  UpdateStatus : String → Application → σ → (Option Application × Option Error) × σ
  Event : Application → String → String → String → σ → σ
  Get : σ → (Item × Bool) × σ
  Add : String → σ → σ
  Done : Item → σ → σ
  Forget : Item → σ → σ
  AddRateLimited : String → σ → σ

/-- Whether a call is made on the work queue. -/
def Call.isQueue : Call → Bool
  | .QueueGet => true
  | .QueueAdd _ => true
  | .QueueDone _ => true
  | .QueueForget _ => true
  | .QueueAddRateLimited _ => true
  | _ => false

/-- The world together with every collaborator call made so far, oldest first. -/
structure Run (σ : Type) where
  world : σ
  calls : List Call

/-- How a Go function call ends: it returns a value, or it panics. -/
inductive Outcome (α : Type) where
  | ret (a : α)
  | panic
  deriving DecidableEq, Repr

/-- Append one call to the trace. -/
def Run.record {σ : Type} (s : Run σ) (call : Call) : Run σ :=
  { s with calls := s.calls ++ [call] }

/-- Call `Kubeclientset.AppsV1().Deployments(ns).Create(ctx, d, opts)`. -/
def Controller.createDeployment {σ : Type} (c : Controller σ) (ns : String) (d : Deployment)
    (s : Run σ) : (Option Deployment × Option Error) × Run σ :=
  ((c.Create ns d s.world).1,
    { world := (c.Create ns d s.world).2, calls := s.calls ++ [.CreateDeployment ns d] })

/-- Call `Kubeclientset.AppsV1().Deployments(ns).Update(ctx, d, opts)`. -/
def Controller.updateDeployment {σ : Type} (c : Controller σ) (ns : String) (d : Deployment)
    (s : Run σ) : (Option Deployment × Option Error) × Run σ :=
  ((c.Update ns d s.world).1,
    { world := (c.Update ns d s.world).2, calls := s.calls ++ [.UpdateDeployment ns d] })

/-! ## client-go helpers used by the controller -/

/-- Go `strings.Split(s, sep)` for a one-character separator, on the characters. -/
def splitChars (sep : Char) : List Char → List (List Char)
  | [] => [[]]
  | ch :: rest =>
    if ch = sep then [] :: splitChars sep rest
    else
      match splitChars sep rest with
      | [] => [[ch]]
      | part :: parts => (ch :: part) :: parts

/-- Go `strings.Split(key, "/")`. -/
def stringsSplit (key : String) : List String :=
  (splitChars '/' key.data).map String.mk

/-- Go `cache.SplitMetaNamespaceKey(key)`: one part is a name without namespace,
two parts are namespace and name, anything else is an error. -/
def SplitMetaNamespaceKey (key : String) : Except String (String × String) :=
  match stringsSplit key with
  | [name] => .ok ("", name)
  | [ns, name] => .ok (ns, name)
  | _ => .error ("unexpected key format: " ++ key)

/-- Go `cache.MetaNamespaceKeyFunc` on object metadata: `namespace/name`, or
`name` alone when the namespace is empty. -/
def MetaNamespaceKey (m : ObjectMeta) : String :=
  if m.Namespace.length > 0 then m.Namespace ++ "/" ++ m.Name else m.Name

/-- The loop of `metav1.GetControllerOf`: the first owner reference whose
`Controller` pointer is non-nil and true. -/
def GetControllerOf : List OwnerReference → Option OwnerReference
  | [] => none
  | ref :: refs => if ref.Controller = some true then some ref else GetControllerOf refs

/-! ## sync.go: the reconcile pass -/

/-- Event constants of controller.go 29-34 and `corev1.EventTypeNormal`. -/
def EventTypeNormal : String := "Normal"

/-- Constant `SuccessSynced` (controller.go 30). -/
def SuccessSynced : String := "Synced"

/-- Constant `MessageResourceSynced` (controller.go 33). -/
def MessageResourceSynced : String := "Application synced successfully"

/-- What one call of `SyncHandler` leaves behind: how it ended, the last value of
its local variable `deployment` (`none` is nil, also before line 32), and the
world with the calls made. -/
structure Pass (σ : Type) where
  result : Outcome (Option Error)
  deployment : Option Deployment
  run : Run σ

/-- Go `updateApplicationStatus` (sync.go 112-123).  The condition reads
`deployment.Namespace` through the pointer, so a nil `deployment` panics. -/
def updateApplicationStatus {σ : Type} (c : Controller σ) (app : Application)
    (deployment : Option Deployment) (s : Run σ) : Outcome (Option Error) × Run σ :=
  match deployment with
  | none => (.panic, s)
  | some d =>
    if app.Status.DeploymentRefNamespace ≠ d.ObjectMeta.Namespace ∨
        app.Status.DeploymentRefName ≠ d.ObjectMeta.Name then
      let appCopy : Application :=
        { app with
          Status :=
            { app.Status with
              DeploymentRefNamespace := d.ObjectMeta.Namespace
              DeploymentRefName := d.ObjectMeta.Name } }
      (.ret (c.UpdateStatus appCopy.ObjectMeta.Namespace appCopy s.world).1.2,
        { world := (c.UpdateStatus appCopy.ObjectMeta.Namespace appCopy s.world).2
          calls := s.calls ++ [.UpdateStatus appCopy.ObjectMeta.Namespace appCopy] })
    else (.ret none, s)

/-- The condition of sync.go line 42,
`app.Spec.Replicas != nil && *app.Spec.Replicas != *deployment.Spec.Replicas`;
`none` is a nil dereference (of `deployment` or of `deployment.Spec.Replicas`),
which the short-circuit `&&` avoids when the Application has no replica count. -/
def replicasDiffer (app : Application) (deployment : Option Deployment) : Option Bool :=
  match app.Spec.Replicas with
  | none => some false
  | some want =>
    match deployment with
    | none => none
    | some d =>
      match d.Spec.Replicas with
      | none => none
      | some got => some (decide (want ≠ got))

/-- Lines 53-64 of `SyncHandler`: return the pending error, else write the
status, else record the success event. -/
def syncFinish {σ : Type} (c : Controller σ) (app : Application)
    (deployment : Option Deployment) (err : Option Error) (s : Run σ) : Pass σ :=
  match err with
  | some e => ⟨.ret (some e), deployment, s⟩
  | none =>
    match updateApplicationStatus c app deployment s with
    | (.panic, s1) => ⟨.panic, deployment, s1⟩
    | (.ret (some e), s1) => ⟨.ret (some e), deployment, s1⟩
    | (.ret none, s1) =>
      ⟨.ret none, deployment,
        { world := c.Event app EventTypeNormal SuccessSynced MessageResourceSynced s1.world
          calls := s1.calls ++ [.Event app EventTypeNormal SuccessSynced MessageResourceSynced] }⟩

/-- Lines 47-51 of `SyncHandler`, then the rest: compare the image of the
"main" container and update on a difference, overwriting `deployment` and `err`. -/
def syncImage {σ : Type} (c : Controller σ) (gv : GroupVersion) (app : Application)
    (deployment : Option Deployment) (err : Option Error) (s : Run σ) : Pass σ :=
  match deployment with
  | none => ⟨.panic, none, s⟩
  | some d =>
    if app.Spec.ImageName ≠ (mainContainerFromDeploymentTemplate d).Image then
      let r := c.updateDeployment app.ObjectMeta.Namespace (NewDeployment gv app) s
      syncFinish c app r.1.1 r.1.2 r.2
    else syncFinish c app deployment err s

/-- Lines 42-45 of `SyncHandler`, then the rest: compare the replica counts and
update on a difference, overwriting `deployment` and `err`. -/
def syncReplicas {σ : Type} (c : Controller σ) (gv : GroupVersion) (app : Application)
    (deployment : Option Deployment) (err : Option Error) (s : Run σ) : Pass σ :=
  match replicasDiffer app deployment with
  | none => ⟨.panic, deployment, s⟩
  | some true =>
    let r := c.updateDeployment app.ObjectMeta.Namespace (NewDeployment gv app) s
    syncImage c gv app r.1.1 r.1.2 r.2
  | some false => syncImage c gv app deployment err s

/-- Go `SyncHandler` (sync.go 16-64).  Lines 17-39 are here, the rest of the
body is `syncReplicas`, `syncImage` and `syncFinish`. -/
def SyncHandler {σ : Type} (c : Controller σ) (gv : GroupVersion) (key : String)
    (s : Run σ) : Pass σ :=
  match SplitMetaNamespaceKey key with
  | .error _ => ⟨.ret none, none, s⟩
  | .ok (ns, name) =>
    let s1 := s.record (.GetApplication ns name)
    match c.ApplicationsLister ns name with
    | .error err =>
      if IsNotFound err then ⟨.ret none, none, s1⟩ else ⟨.ret (some err), none, s1⟩
    | .ok app =>
      let s2 := s1.record
        (.GetDeployment app.Status.DeploymentRefNamespace app.Status.DeploymentRefName)
      match c.DeploymentsLister app.Status.DeploymentRefNamespace
          app.Status.DeploymentRefName with
      | .error err =>
        if IsNotFound err then
          let r := c.createDeployment app.ObjectMeta.Namespace (NewDeployment gv app) s2
          syncReplicas c gv app r.1.1 r.1.2 r.2
        else ⟨.ret (some err), none, s2⟩
      | .ok d => syncReplicas c gv app (some d) none s2

/-! ## controller.go: the worker and the event handlers -/

/-- Go `processNextWorkItem` (controller.go 138-174).  The closure defers
`Workqueue.Done(obj)`, so `Done` runs last on every path out of it, also when
`SyncHandler` panics; the panic then goes on up through `processNextWorkItem`. -/
def processNextWorkItem {σ : Type} (c : Controller σ) (gv : GroupVersion) (s : Run σ) :
    Outcome Bool × Run σ :=
  let s1 : Run σ := { world := (c.Get s.world).2, calls := s.calls ++ [.QueueGet] }
  let obj := (c.Get s.world).1.1
  let shutdown := (c.Get s.world).1.2
  if shutdown then (.ret false, s1)
  else
    match obj with
    | .other descr =>
      let s2 : Run σ :=
        { world := c.Forget obj s1.world, calls := s1.calls ++ [.QueueForget (.other descr)] }
      (.ret true, { world := c.Done obj s2.world, calls := s2.calls ++ [.QueueDone obj] })
    | .str key =>
      let p := SyncHandler c gv key s1
      match p.result with
      | .panic =>
        (.panic, { world := c.Done obj p.run.world, calls := p.run.calls ++ [.QueueDone obj] })
      | .ret (some _) =>
        let s2 : Run σ :=
          { world := c.AddRateLimited key p.run.world
            calls := p.run.calls ++ [.QueueAddRateLimited key] }
        (.ret true, { world := c.Done obj s2.world, calls := s2.calls ++ [.QueueDone obj] })
      | .ret none =>
        let s2 : Run σ :=
          { world := c.Forget obj p.run.world, calls := p.run.calls ++ [.QueueForget obj] }
        (.ret true, { world := c.Done obj s2.world, calls := s2.calls ++ [.QueueDone obj] })

/-- A value handed to an event handler (`interface{}`). -/
inductive Obj where
  | application (a : Application)
  | deployment (d : Deployment)
  | tombstone (key : String) (obj : Obj)
  | explicitKey (key : String)
  | other (descr : String)
  deriving DecidableEq, Repr

/-- The type assertion `obj.(metav1.Object)`: API objects carry metadata, a
`cache.DeletedFinalStateUnknown`, a key or any other value does not. -/
def asObject : Obj → Option ObjectMeta
  | .application a => some a.ObjectMeta
  | .deployment d => some d.ObjectMeta
  | _ => none

/-- Go `cache.MetaNamespaceKeyFunc(obj)`: an explicit key is returned as is, an
object gives `MetaNamespaceKey`, anything else has no metadata. -/
def MetaNamespaceKeyFunc (obj : Obj) : Except String String :=
  match obj with
  | .explicitKey key => .ok key
  | _ =>
    match asObject obj with
    | some m => .ok (MetaNamespaceKey m)
    | none => .error "object has no meta"

/-- Go `enqueueApplication` (controller.go 176-184). -/
def enqueueApplication {σ : Type} (c : Controller σ) (obj : Obj) (s : Run σ) : Run σ :=
  match MetaNamespaceKeyFunc obj with
  | .error _ => s
  | .ok key => { world := c.Add key s.world, calls := s.calls ++ [.QueueAdd key] }

/-- Lines 202-218 of `handleObject`, once `object` is known. -/
def handleOwner {σ : Type} (c : Controller σ) (object : ObjectMeta) (s : Run σ) : Run σ :=
  match GetControllerOf object.OwnerReferences with
  | none => s
  | some ownerRef =>
    if ownerRef.Kind ≠ "Application" then s
    else
      let s1 := s.record (.GetApplication object.Namespace ownerRef.Name)
      match c.ApplicationsLister object.Namespace ownerRef.Name with
      | .error _ => s1
      | .ok app => enqueueApplication c (.application app) s1

/-- Go `handleObject` (controller.go 186-219). -/
def handleObject {σ : Type} (c : Controller σ) (obj : Obj) (s : Run σ) : Run σ :=
  match asObject obj with
  | some object => handleOwner c object s
  | none =>
    match obj with
    | .tombstone _ inner =>
      match asObject inner with
      | some object => handleOwner c object s
      | none => s
    | _ => s

/-- The `UpdateFunc` closure registered on the Deployment informer
(controller.go 92-99); `none` is the panic of a failed type assertion
`new.(*appsv1.Deployment)` or `old.(*appsv1.Deployment)`. -/
def deploymentUpdateFunc {σ : Type} (c : Controller σ) (old new : Obj) (s : Run σ) :
    Option (Run σ) :=
  match new, old with
  | .deployment newDepl, .deployment oldDepl =>
    if newDepl.ObjectMeta.ResourceVersion = oldDepl.ObjectMeta.ResourceVersion then some s
    else some (handleObject c new s)
  | _, _ => none

/-! ## A concrete cluster, for evaluating the model -/

/-- Modelled from the spec: the generated listers of `pkg/client/listers` and
of client-go are not part of the sources read here; per the spec a typed reader
is `get(namespace, name) -> object | NotFound` over the local cache.  The first
cached object stored under the namespace and name is returned. -/
def cacheLister {α : Type} (metaOf : α → ObjectMeta) (cache : List α) (ns name : String) :
    Except Error α :=
  match cache.find? (fun a => decide ((metaOf a).Namespace = ns ∧ (metaOf a).Name = name)) with
  | some a => .ok a
  | none => .error (.notFound name)

/-- The content of a small API server and work queue: what was written, in order. -/
structure Cluster where
  deployments : List Deployment := []
  statuses : List Application := []
  events : List String := []
  queue : List String := []
  pending : List Item := []
  deriving DecidableEq, Repr

/-- A controller over `Cluster` whose listers read the given caches and whose
writers store the object they are given and return it, without error.  `Get`
hands out the first pending item and reports shutdown when there is none. -/
def storingController (apps : List Application) (deps : List Deployment) : Controller Cluster :=
  { ApplicationsLister := cacheLister Application.ObjectMeta apps
    DeploymentsLister := cacheLister Deployment.ObjectMeta deps
    Create := fun _ d w => ((some d, none), { w with deployments := w.deployments ++ [d] })
    Update := fun _ d w => ((some d, none), { w with deployments := w.deployments ++ [d] })
    UpdateStatus := fun _ a w => ((some a, none), { w with statuses := w.statuses ++ [a] })
    Event := fun _ _ reason _ w => { w with events := w.events ++ [reason] }
    Get := fun w =>
      match w.pending with
      | [] => ((.other "", true), w)
      | item :: rest => ((item, false), { w with pending := rest })
    Add := fun key w => { w with queue := w.queue ++ [key] }
    Done := fun _ w => w
    Forget := fun _ w => w
    AddRateLimited := fun key w => { w with queue := w.queue ++ [key] } }

/-- The Application of the repository's tests: `newApplication name image replicas`
(controller_test.go 54-66), in namespace `default`. -/
def newApplication (name imageName : String) (replicas : Option Int) : Application :=
  { ObjectMeta := { Name := name, Namespace := "default" }
    Spec := { ImageName := imageName, Replicas := replicas } }

/-- A group and version for the evaluations. -/
def testGroupVersion : GroupVersion := { Group := "example.io", Version := "v1" }

/-- The storing controller, except that every `UpdateStatus` call is refused
with an error (for instance a resource-version conflict). -/
def statusRefusingController (apps : List Application) (deps : List Deployment) :
    Controller Cluster :=
  { storingController apps deps with
    UpdateStatus := fun _ _ w => ((none, some (.other "conflict")), w) }

/-- The storing controller, except that every create is refused: the call
returns an error together with an empty Deployment, as a typed client does when
the request fails (for instance the Deployment already exists on the server
while the cache does not have it). -/
def createRefusingController (apps : List Application) (deps : List Deployment) :
    Controller Cluster :=
  { storingController apps deps with
    Create := fun _ _ w => ((some {}, some (.other "already exists")), w) }

/-- The storing controller, except that every create is refused with an error
and no object at all (a nil pointer), as the fake clientset answers. -/
def createFailingController (apps : List Application) (deps : List Deployment) :
    Controller Cluster :=
  { storingController apps deps with
    Create := fun _ _ w => ((none, some (.other "already exists")), w) }

/-- A controller over `Cluster` whose Application lister fails on every lookup
with the given error; everything else is the storing controller. -/
def failingListerController (err : Error) : Controller Cluster :=
  { storingController [] [] with ApplicationsLister := fun _ _ => .error err }

/-- The empty run over a cluster. -/
def emptyRun : Run Cluster := { world := {}, calls := [] }

/-- The Application of `TestDoNothing`: its status records the derived child. -/
def syncedApplication (imageName : String) (replicas : Option Int) : Application :=
  { newApplication "test" imageName replicas with
    Status := { DeploymentRefNamespace := "default", DeploymentRefName := "test" } }

/-- The derived child of the synced test Application, with its replica count
and the image of its only container replaced (`TestUpdateDeploymentReplicas`,
`TestUpdateDeploymentImageName`). -/
def driftedDeployment (app : Application) (replicas : Option Int) (image : String) : Deployment :=
  { NewDeployment testGroupVersion app with
    Spec :=
      { (NewDeployment testGroupVersion app).Spec with
        Replicas := replicas
        Template :=
          { (NewDeployment testGroupVersion app).Spec.Template with
            Spec := { Containers := [{ Name := "main", Image := image }] } } } }

/-- The cluster with one pending queue item. -/
def pendingRun (item : Item) : Run Cluster := { world := { pending := [item] }, calls := [] }

/-- A Deployment in namespace `default` with the given owner references. -/
def ownedDeployment (name : String) (refs : List OwnerReference) : Deployment :=
  { ObjectMeta := { Name := name, Namespace := "default", OwnerReferences := refs } }

/-- A controller owner reference of the given kind and name. -/
def controllerRef (kind name : String) : OwnerReference :=
  { APIVersion := "v1", Kind := kind, Name := name, UID := "", Controller := some true,
    BlockOwnerDeletion := some true }

/-- The run `t` continues the run `s` with calls that are not queue calls. -/
def ContinuesOffQueue {σ : Type} (s t : Run σ) : Prop :=
  ∃ l, t.calls = s.calls ++ l ∧ ∀ x ∈ l, Call.isQueue x = false

/-- The derived child of an Application with the given replica count and with
its containers replaced by a single one that is not named "main". -/
def sidecarDeployment (app : Application) (replicas : Option Int) : Deployment :=
  { NewDeployment testGroupVersion app with
    Spec :=
      { (NewDeployment testGroupVersion app).Spec with
        Replicas := replicas
        Template :=
          { (NewDeployment testGroupVersion app).Spec.Template with
            Spec := { Containers := [{ Name := "sidecar", Image := "busybox" }] } } } }

/-! ## Lemmas on keys -/

theorem splitChars_of_not_mem (sep : Char) (l : List Char) (h : sep ∉ l) :
    splitChars sep l = [l] := by
  induction l with
  | nil => rfl
  | cons ch rest ih =>
    have hne : ch ≠ sep := fun e => h (by simp [e])
    have hrest : sep ∉ rest := fun hm => h (List.mem_cons_of_mem _ hm)
    simp [splitChars, hne, ih hrest]

theorem splitChars_append_sep (sep : Char) (a b : List Char) (h : sep ∉ a) :
    splitChars sep (a ++ sep :: b) = a :: splitChars sep b := by
  induction a with
  | nil => simp [splitChars]
  | cons ch rest ih =>
    have hne : ch ≠ sep := fun e => h (by simp [e])
    have hrest : sep ∉ rest := fun hm => h (List.mem_cons_of_mem _ hm)
    simp [splitChars, hne, ih hrest]

/-- A key `namespace/name` built from parts without a slash splits back into them. -/
theorem SplitMetaNamespaceKey_join (ns name : String) (hns : '/' ∉ ns.data)
    (hname : '/' ∉ name.data) :
    SplitMetaNamespaceKey (ns ++ "/" ++ name) = .ok (ns, name) := by
  have hdata : (ns ++ "/" ++ name).data = ns.data ++ '/' :: name.data := by
    simp [String.data_append]
  simp [SplitMetaNamespaceKey, stringsSplit, hdata, splitChars_append_sep _ _ _ hns,
    splitChars_of_not_mem _ _ hname]

/-! ## Lemmas on the derived child -/

theorem mainContainer_NewDeployment (gv : GroupVersion) (app : Application) :
    (mainContainerFromDeploymentTemplate (NewDeployment gv app)).Image = app.Spec.ImageName := by
  simp [mainContainerFromDeploymentTemplate, NewDeployment, mainContainerLoop]

theorem replicasDiffer_NewDeployment (gv : GroupVersion) (app : Application) :
    replicasDiffer app (some (NewDeployment gv app)) = some false := by
  unfold replicasDiffer
  cases hr : app.Spec.Replicas <;> simp [NewDeployment, hr]

theorem NewDeployment_meta (gv : GroupVersion) (app : Application) :
    (NewDeployment gv app).ObjectMeta.Name = app.ObjectMeta.Name ∧
      (NewDeployment gv app).ObjectMeta.Namespace = app.ObjectMeta.Namespace :=
  ⟨rfl, rfl⟩

theorem replicasDiffer_false (app : Application) (d : Deployment)
    (h : replicasDiffer app (some d) = some false) (r : Int) (hr : app.Spec.Replicas = some r) :
    d.Spec.Replicas = some r := by
  unfold replicasDiffer at h
  rw [hr] at h
  cases hd : d.Spec.Replicas with
  | none => simp [hd] at h
  | some got =>
    simp [hd] at h
    rw [h]

/-! ## Lemmas on the segments of the pass -/

theorem syncFinish_deployment {σ : Type} (c : Controller σ) (app : Application)
    (deployment : Option Deployment) (err : Option Error) (s : Run σ) :
    (syncFinish c app deployment err s).deployment = deployment := by
  unfold syncFinish
  split
  · rfl
  · split <;> rfl

theorem syncImage_post {σ : Type} (c : Controller σ) (gv : GroupVersion) (app : Application)
    (deployment : Option Deployment) (err : Option Error) (s : Run σ)
    (hupdate : ∀ ns d w, (c.Update ns d w).1 = (some d, none))
    (hret : (syncImage c gv app deployment err s).result = .ret none) :
    ∃ d, (syncImage c gv app deployment err s).deployment = some d ∧
      (mainContainerFromDeploymentTemplate d).Image = app.Spec.ImageName ∧
      (d = NewDeployment gv app ∨ deployment = some d) := by
  unfold syncImage at hret ⊢
  cases deployment with
  | none => simp at hret
  | some d =>
    by_cases himg : app.Spec.ImageName = (mainContainerFromDeploymentTemplate d).Image
    · refine ⟨d, ?_, himg.symm, Or.inr rfl⟩
      simp [himg, syncFinish_deployment]
    · refine ⟨NewDeployment gv app, ?_, mainContainer_NewDeployment gv app, Or.inl rfl⟩
      simp [himg, syncFinish_deployment, Controller.updateDeployment, hupdate]

theorem syncReplicas_post {σ : Type} (c : Controller σ) (gv : GroupVersion) (app : Application)
    (deployment : Option Deployment) (err : Option Error) (s : Run σ)
    (hupdate : ∀ ns d w, (c.Update ns d w).1 = (some d, none))
    (hret : (syncReplicas c gv app deployment err s).result = .ret none) :
    ∃ d, (syncReplicas c gv app deployment err s).deployment = some d ∧
      (mainContainerFromDeploymentTemplate d).Image = app.Spec.ImageName ∧
      (d = NewDeployment gv app ∨
        (deployment = some d ∧ replicasDiffer app deployment = some false)) := by
  unfold syncReplicas at hret ⊢
  rcases hd : replicasDiffer app deployment with _ | b
  · simp [hd] at hret
  · cases b with
    | true =>
      simp only [hd] at hret ⊢
      obtain ⟨d, h1, h2, h3⟩ := syncImage_post c gv app _ _ _ hupdate hret
      refine ⟨d, h1, h2, Or.inl ?_⟩
      rcases h3 with h3 | h3
      · exact h3
      · simp [Controller.updateDeployment, hupdate] at h3
        exact h3.symm
    | false =>
      simp only [hd] at hret ⊢
      obtain ⟨d, h1, h2, h3⟩ := syncImage_post c gv app _ _ _ hupdate hret
      refine ⟨d, h1, h2, ?_⟩
      rcases h3 with h3 | h3
      · exact Or.inl h3
      · exact Or.inr ⟨h3, trivial⟩

/-! ## Reconcile pass: creation -/

/-- C1 (as stated, refuted): an Application named `test` with no recorded child,
a deployment reader reporting not-found and a create that returns the object it
was given; the `UpdateStatus` call that follows is refused, and `SyncHandler`
returns that error instead of nil. -/
theorem creation_returns_status_error :
    (newApplication "test" "nginx" (some 1)).ObjectMeta.Name ≠ "" ∧
    (newApplication "test" "nginx" (some 1)).Status.DeploymentRefNamespace = "" ∧
    (newApplication "test" "nginx" (some 1)).Status.DeploymentRefName = "" ∧
    (statusRefusingController [newApplication "test" "nginx" (some 1)] []).ApplicationsLister
      "default" "test" = .ok (newApplication "test" "nginx" (some 1)) ∧
    (statusRefusingController [newApplication "test" "nginx" (some 1)] []).DeploymentsLister
      "" "" = .error (.notFound "") ∧
    (∀ ns d w, ((statusRefusingController [newApplication "test" "nginx" (some 1)] []).Create
      ns d w).1 = (some d, none)) ∧
    (SyncHandler (statusRefusingController [newApplication "test" "nginx" (some 1)] [])
      testGroupVersion "default/test" emptyRun).result = .ret (some (.other "conflict")) ∧
    (SyncHandler (statusRefusingController [newApplication "test" "nginx" (some 1)] [])
      testGroupVersion "default/test" emptyRun).result ≠ .ret none := by
  refine ⟨by decide, by decide, by decide, by rfl, by rfl, ?_, by decide, by decide⟩
  intro ns d w
  rfl

/-- C1 (amended): for an Application with a non-empty name and no recorded
child, when the deployment reader reports not-found, create returns the object
it was given and the `UpdateStatus` call succeeds, `SyncHandler` returns nil
after exactly these calls: the two cache reads, one create carrying
`NewDeployment app`, no update, one `UpdateStatus` carrying the Application
with only its two status fields set to the child's namespace and name, and the
success event. -/
theorem creation_calls {σ : Type} (c : Controller σ) (gv : GroupVersion) (key ns name : String)
    (app : Application) (e : Error) (s : Run σ)
    (hkey : SplitMetaNamespaceKey key = .ok (ns, name))
    (happ : c.ApplicationsLister ns name = .ok app)
    (hname : app.ObjectMeta.Name ≠ "")
    (hns0 : app.Status.DeploymentRefNamespace = "")
    (hname0 : app.Status.DeploymentRefName = "")
    (hdep : c.DeploymentsLister "" "" = .error e)
    (hnf : IsNotFound e = true)
    (hcreate : ∀ ns d w, (c.Create ns d w).1 = (some d, none))
    (hstatus : ∀ ns a w, (c.UpdateStatus ns a w).1.2 = none) :
    (SyncHandler c gv key s).result = .ret none ∧
    (SyncHandler c gv key s).deployment = some (NewDeployment gv app) ∧
    (SyncHandler c gv key s).run.calls = s.calls ++
      [ .GetApplication ns name,
        .GetDeployment "" "",
        .CreateDeployment app.ObjectMeta.Namespace (NewDeployment gv app),
        .UpdateStatus app.ObjectMeta.Namespace
          { app with
            Status :=
              { DeploymentRefNamespace := (NewDeployment gv app).ObjectMeta.Namespace
                DeploymentRefName := (NewDeployment gv app).ObjectMeta.Name } },
        .Event app EventTypeNormal SuccessSynced MessageResourceSynced ] := by
  have hmain := mainContainer_NewDeployment gv app
  have hrep := replicasDiffer_NewDeployment gv app
  have hmeta := NewDeployment_meta gv app
  simp [SyncHandler, hkey, happ, hns0, hname0, hdep, hnf, Controller.createDeployment, hcreate,
    syncReplicas, hrep, syncImage, hmain, syncFinish, updateApplicationStatus, hmeta,
    Ne.symm hname, hstatus, Run.record]

/-- C1 witness: the test `TestCreatesDeployment`. -/
theorem creation_calls_witness :
    (SyncHandler (storingController [newApplication "test" "nginx" (some 1)] [])
      testGroupVersion "default/test" emptyRun).result = .ret none :=
  (creation_calls (storingController [newApplication "test" "nginx" (some 1)] [])
    testGroupVersion "default/test" "default" "test" (newApplication "test" "nginx" (some 1))
    (.notFound "") emptyRun (by rfl) (by rfl) (by decide) (by rfl) (by rfl) (by rfl) (by rfl)
    (fun _ _ _ => rfl) (fun _ _ _ => rfl)).1

/-! ## Reconcile pass: nothing to do -/

/-- C2: when the Application's status records the namespace and name of a
cached child equal to `NewDeployment app` (replica count specified or not, any
image), `SyncHandler` returns nil and makes no write call: after the two cache
reads the only call is the success event. -/
theorem idempotent_pass {σ : Type} (c : Controller σ) (gv : GroupVersion) (key ns name : String)
    (app : Application) (s : Run σ)
    (hkey : SplitMetaNamespaceKey key = .ok (ns, name))
    (happ : c.ApplicationsLister ns name = .ok app)
    (hdep : c.DeploymentsLister app.Status.DeploymentRefNamespace
      app.Status.DeploymentRefName = .ok (NewDeployment gv app))
    (hns : app.Status.DeploymentRefNamespace = (NewDeployment gv app).ObjectMeta.Namespace)
    (hname : app.Status.DeploymentRefName = (NewDeployment gv app).ObjectMeta.Name) :
    (SyncHandler c gv key s).result = .ret none ∧
    (SyncHandler c gv key s).run.calls = s.calls ++
      [ .GetApplication ns name,
        .GetDeployment app.Status.DeploymentRefNamespace app.Status.DeploymentRefName,
        .Event app EventTypeNormal SuccessSynced MessageResourceSynced ] ∧
    (SyncHandler c gv key s).run.world =
      c.Event app EventTypeNormal SuccessSynced MessageResourceSynced s.world := by
  have hmain := mainContainer_NewDeployment gv app
  have hrep := replicasDiffer_NewDeployment gv app
  have hmeta := NewDeployment_meta gv app
  rw [hmeta.1] at hname
  rw [hmeta.2] at hns
  rw [hns, hname] at hdep
  simp [SyncHandler, hkey, happ, hdep, syncReplicas, hrep, syncImage, hmain, syncFinish,
    updateApplicationStatus, hns, hname, hmeta, Run.record]

/-- C2 witness: the test `TestDoNothing`. -/
theorem idempotent_pass_witness :
    (SyncHandler
      (storingController [syncedApplication "nginx" (some 1)]
        [NewDeployment testGroupVersion (syncedApplication "nginx" (some 1))])
      testGroupVersion "default/test" emptyRun).result = .ret none :=
  (idempotent_pass
    (storingController [syncedApplication "nginx" (some 1)]
      [NewDeployment testGroupVersion (syncedApplication "nginx" (some 1))])
    testGroupVersion "default/test" "default" "test" (syncedApplication "nginx" (some 1))
    emptyRun (by rfl) (by rfl) (by rfl) (by rfl) (by rfl)).1

/-! ## Reconcile pass: drift -/

/-- C3: the status records a cached child `d` that carries the Application's
name and namespace and has a replica count; if that count differs from the
count the Application specifies, or the image of the "main" container differs
from `ImageName`, or both, and update returns the object it was given, then
`SyncHandler` returns nil and makes exactly one update call, carrying
`NewDeployment app`, no create call and no `UpdateStatus` call. -/
theorem drift_single_update {σ : Type} (c : Controller σ) (gv : GroupVersion)
    (key ns name : String) (app : Application) (d : Deployment) (got : Int) (s : Run σ)
    (hkey : SplitMetaNamespaceKey key = .ok (ns, name))
    (happ : c.ApplicationsLister ns name = .ok app)
    (hdep : c.DeploymentsLister app.Status.DeploymentRefNamespace
      app.Status.DeploymentRefName = .ok d)
    (hsns : app.Status.DeploymentRefNamespace = d.ObjectMeta.Namespace)
    (hsname : app.Status.DeploymentRefName = d.ObjectMeta.Name)
    (hdns : d.ObjectMeta.Namespace = app.ObjectMeta.Namespace)
    (hdname : d.ObjectMeta.Name = app.ObjectMeta.Name)
    (hgot : d.Spec.Replicas = some got)
    (hdrift : (∃ want, app.Spec.Replicas = some want ∧ want ≠ got) ∨
      (mainContainerFromDeploymentTemplate d).Image ≠ app.Spec.ImageName)
    (hupdate : ∀ ns d w, (c.Update ns d w).1 = (some d, none)) :
    (SyncHandler c gv key s).result = .ret none ∧
    (SyncHandler c gv key s).deployment = some (NewDeployment gv app) ∧
    (SyncHandler c gv key s).run.calls = s.calls ++
      [ .GetApplication ns name,
        .GetDeployment app.Status.DeploymentRefNamespace app.Status.DeploymentRefName,
        .UpdateDeployment app.ObjectMeta.Namespace (NewDeployment gv app),
        .Event app EventTypeNormal SuccessSynced MessageResourceSynced ] := by
  have hmain := mainContainer_NewDeployment gv app
  have hmeta := NewDeployment_meta gv app
  have hsns2 : app.Status.DeploymentRefNamespace = app.ObjectMeta.Namespace := by
    rw [hsns, hdns]
  have hsname2 : app.Status.DeploymentRefName = app.ObjectMeta.Name := by
    rw [hsname, hdname]
  rw [hsns2, hsname2] at hdep
  rcases hr : app.Spec.Replicas with _ | want
  · have himg : ¬ app.Spec.ImageName = (mainContainerFromDeploymentTemplate d).Image := by
      rcases hdrift with ⟨w, hw, _⟩ | h
      · rw [hr] at hw
        cases hw
      · exact fun e => h e.symm
    simp [SyncHandler, hkey, happ, hdep, syncReplicas, replicasDiffer, hr, hgot, syncImage, himg,
      Controller.updateDeployment, hupdate, syncFinish, updateApplicationStatus, hmeta, hsns2,
      hsname2, Run.record]
  · by_cases hw : want = got
    · have himg : ¬ app.Spec.ImageName = (mainContainerFromDeploymentTemplate d).Image := by
        rcases hdrift with ⟨w, hw2, hne⟩ | h
        · rw [hr] at hw2
          cases hw2
          exact absurd hw hne
        · exact fun e => h e.symm
      simp [SyncHandler, hkey, happ, hdep, syncReplicas, replicasDiffer, hr, hgot, hw, syncImage,
        himg, Controller.updateDeployment, hupdate, syncFinish, updateApplicationStatus, hmeta,
        hsns2, hsname2, Run.record]
    · simp [SyncHandler, hkey, happ, hdep, syncReplicas, replicasDiffer, hr, hgot, hw, syncImage,
        hmain, Controller.updateDeployment, hupdate, syncFinish, updateApplicationStatus, hmeta,
        hsns2, hsname2, Run.record]

/-- C3 witness: the test `TestUpdateDeploymentReplicas`. -/
theorem drift_single_update_witness :
    (SyncHandler
      (storingController [syncedApplication "nginx" (some 1)]
        [driftedDeployment (syncedApplication "nginx" (some 1)) (some 2) "nginx"])
      testGroupVersion "default/test" emptyRun).run.calls =
      [ .GetApplication "default" "test",
        .GetDeployment "default" "test",
        .UpdateDeployment "default"
          (NewDeployment testGroupVersion (syncedApplication "nginx" (some 1))),
        .Event (syncedApplication "nginx" (some 1)) EventTypeNormal SuccessSynced
          MessageResourceSynced ] :=
  (drift_single_update
    (storingController [syncedApplication "nginx" (some 1)]
      [driftedDeployment (syncedApplication "nginx" (some 1)) (some 2) "nginx"])
    testGroupVersion "default/test" "default" "test" (syncedApplication "nginx" (some 1))
    (driftedDeployment (syncedApplication "nginx" (some 1)) (some 2) "nginx") 2 emptyRun
    (by rfl) (by rfl) (by rfl) (by rfl) (by rfl) (by rfl) (by rfl) (by rfl)
    (Or.inl ⟨1, by rfl, by decide⟩) (fun _ _ _ => rfl)).2.2

/-! ## Reconcile pass: what a successful pass ends with -/

/-- C4: with a writer whose create and update return exactly the object they
are given, whenever `SyncHandler` found the Application and returned nil, the
child the pass ended with has the Application's replica count when the
Application specifies one, and its "main" container has the Application's
image. -/
theorem successful_pass_child {σ : Type} (c : Controller σ) (gv : GroupVersion)
    (key ns name : String) (app : Application) (s : Run σ)
    (hkey : SplitMetaNamespaceKey key = .ok (ns, name))
    (happ : c.ApplicationsLister ns name = .ok app)
    (hcreate : ∀ ns d w, (c.Create ns d w).1 = (some d, none))
    (hupdate : ∀ ns d w, (c.Update ns d w).1 = (some d, none))
    (hret : (SyncHandler c gv key s).result = .ret none) :
    ∃ d, (SyncHandler c gv key s).deployment = some d ∧
      (∀ r, app.Spec.Replicas = some r → d.Spec.Replicas = some r) ∧
      (mainContainerFromDeploymentTemplate d).Image = app.Spec.ImageName := by
  unfold SyncHandler at hret ⊢
  simp only [hkey, happ] at hret ⊢
  rcases hdep : c.DeploymentsLister app.Status.DeploymentRefNamespace
      app.Status.DeploymentRefName with e | d0
  · simp only [hdep] at hret ⊢
    by_cases hnf : IsNotFound e = true
    · simp only [hnf, if_true] at hret ⊢
      obtain ⟨d, h1, h2, h3⟩ := syncReplicas_post c gv app _ _ _ hupdate hret
      refine ⟨d, h1, ?_, h2⟩
      have hd : d = NewDeployment gv app := by
        rcases h3 with h3 | ⟨h3, _⟩
        · exact h3
        · simp [Controller.createDeployment, hcreate] at h3
          exact h3.symm
      intro r hr
      rw [hd]
      exact hr
    · simp [hnf] at hret
  · simp only [hdep] at hret ⊢
    obtain ⟨d, h1, h2, h3⟩ := syncReplicas_post c gv app _ _ _ hupdate hret
    refine ⟨d, h1, ?_, h2⟩
    intro r hr
    rcases h3 with h3 | ⟨h3, h4⟩
    · rw [h3]
      exact hr
    · rw [h3] at h4
      exact replicasDiffer_false app d h4 r hr

/-- C4 witness: the test `TestUpdateDeploymentImageName`. -/
theorem successful_pass_child_witness :
    ∃ d, (SyncHandler
      (storingController [syncedApplication "nginx" (some 1)]
        [driftedDeployment (syncedApplication "nginx" (some 1)) (some 1) "mysql"])
      testGroupVersion "default/test" emptyRun).deployment = some d ∧
      (∀ r, (syncedApplication "nginx" (some 1)).Spec.Replicas = some r →
        d.Spec.Replicas = some r) ∧
      (mainContainerFromDeploymentTemplate d).Image =
        (syncedApplication "nginx" (some 1)).Spec.ImageName :=
  successful_pass_child
    (storingController [syncedApplication "nginx" (some 1)]
      [driftedDeployment (syncedApplication "nginx" (some 1)) (some 1) "mysql"])
    testGroupVersion "default/test" "default" "test" (syncedApplication "nginx" (some 1))
    emptyRun (by rfl) (by rfl) (fun _ _ _ => rfl) (fun _ _ _ => rfl) (by decide)

/-! ## Reconcile pass: a failed write -/

/-- C5 (the code at the failing input): an Application without replica count
and with image `nginx`, no recorded child, nothing cached.  The create is
refused and hands back an error with an empty Deployment; the image comparison
then sees the empty image, the update that follows succeeds and overwrites the
error: `SyncHandler` returns nil, writes the status and records the success
event.  When the refused create hands back no object at all, the pass panics
on the nil pointer instead of returning the error. -/
theorem failed_create_is_hidden :
    (SyncHandler (createRefusingController [newApplication "test" "nginx" none] [])
      testGroupVersion "default/test" emptyRun).result = .ret none ∧
    (SyncHandler (createRefusingController [newApplication "test" "nginx" none] [])
      testGroupVersion "default/test" emptyRun).run.calls =
      [ .GetApplication "default" "test",
        .GetDeployment "" "",
        .CreateDeployment "default"
          (NewDeployment testGroupVersion (newApplication "test" "nginx" none)),
        .UpdateDeployment "default"
          (NewDeployment testGroupVersion (newApplication "test" "nginx" none)),
        .UpdateStatus "default" (syncedApplication "nginx" none),
        .Event (newApplication "test" "nginx" none) EventTypeNormal SuccessSynced
          MessageResourceSynced ] ∧
    (SyncHandler (createFailingController [newApplication "test" "nginx" none] [])
      testGroupVersion "default/test" emptyRun).result = .panic := by
  refine ⟨by decide, by decide, by decide⟩

/-! ## The derived child -/

/-- C6: `NewDeployment app` has the Application's name and namespace; exactly
one owner reference, a controller reference of kind "Application" with the
Application's name and UID; selector match-labels and pod-template labels both
the single entry `controller ↦ app.Name`; exactly one container, named "main",
with the Application's image; and the Application's replica count (unset when
the Application's is unset). -/
theorem NewDeployment_shape (gv : GroupVersion) (app : Application) :
    (NewDeployment gv app).ObjectMeta.Name = app.ObjectMeta.Name ∧
    (NewDeployment gv app).ObjectMeta.Namespace = app.ObjectMeta.Namespace ∧
    (∃ ref, (NewDeployment gv app).ObjectMeta.OwnerReferences = [ref] ∧
      ref.Controller = some true ∧ ref.Kind = "Application" ∧
      ref.Name = app.ObjectMeta.Name ∧ ref.UID = app.ObjectMeta.UID ∧
      GetControllerOf (NewDeployment gv app).ObjectMeta.OwnerReferences = some ref) ∧
    (NewDeployment gv app).Spec.Selector =
      some { MatchLabels := [("controller", app.ObjectMeta.Name)] } ∧
    (NewDeployment gv app).Spec.Template.ObjectMeta.Labels =
      [("controller", app.ObjectMeta.Name)] ∧
    (NewDeployment gv app).Spec.Template.Spec.Containers =
      [{ Name := "main", Image := app.Spec.ImageName }] ∧
    (NewDeployment gv app).Spec.Replicas = app.Spec.Replicas := by
  refine ⟨rfl, rfl, ⟨NewControllerRef app gv "Application", rfl, rfl, rfl, rfl, rfl, ?_⟩,
    rfl, rfl, rfl, rfl⟩
  simp [NewDeployment, GetControllerOf, NewControllerRef]

/-! ## Reconcile pass: dropped work -/

/-- C10: a key with more than two slash-separated parts makes `SyncHandler`
return nil with no call at all; a well-formed key whose Application the lister
reports as not found makes it return nil after the Application lookup alone (no
child lookup, no write, no event, the world untouched); any other lookup error
is returned unchanged, again after the Application lookup alone. -/
theorem dropped_work {σ : Type} (c : Controller σ) (gv : GroupVersion) (key : String)
    (s : Run σ) :
    (2 < (stringsSplit key).length →
      (SyncHandler c gv key s).result = .ret none ∧
      (SyncHandler c gv key s).run.calls = s.calls ∧
      (SyncHandler c gv key s).run.world = s.world) ∧
    (∀ ns name err, SplitMetaNamespaceKey key = .ok (ns, name) →
      c.ApplicationsLister ns name = .error err →
      (SyncHandler c gv key s).result = .ret (if IsNotFound err then none else some err) ∧
      (SyncHandler c gv key s).run.calls = s.calls ++ [.GetApplication ns name] ∧
      (SyncHandler c gv key s).run.world = s.world) := by
  constructor
  · intro hlen
    have hsplit : ∃ m, SplitMetaNamespaceKey key = .error m := by
      unfold SplitMetaNamespaceKey
      rcases hs : stringsSplit key with _ | ⟨a, _ | ⟨b, _ | ⟨x, rest⟩⟩⟩
      · simp [hs] at hlen
      · simp [hs] at hlen
      · simp [hs] at hlen
      · exact ⟨_, rfl⟩
    obtain ⟨m, hm⟩ := hsplit
    simp [SyncHandler, hm]
  · intro ns name err hkey happ
    by_cases hnf : IsNotFound err = true
    · simp [SyncHandler, hkey, happ, hnf, Run.record]
    · simp [SyncHandler, hkey, happ, hnf, Run.record]

/-- C10 witness: the malformed key `a/b/c`, the key of an
Application that is not cached, and a lister that fails with another error. -/
theorem dropped_work_witness :
    ((SyncHandler (storingController [] []) testGroupVersion "a/b/c" emptyRun).result =
        .ret none ∧
      (SyncHandler (storingController [] []) testGroupVersion "a/b/c" emptyRun).run.calls =
        emptyRun.calls ∧
      (SyncHandler (storingController [] []) testGroupVersion "a/b/c" emptyRun).run.world =
        emptyRun.world) ∧
    (SyncHandler (storingController [] []) testGroupVersion "default/test" emptyRun).result =
      .ret none ∧
    (SyncHandler (failingListerController (.other "timeout")) testGroupVersion "default/test"
      emptyRun).result = .ret (some (.other "timeout")) :=
  ⟨(dropped_work (storingController [] []) testGroupVersion "a/b/c" emptyRun).1 (by decide),
    ((dropped_work (storingController [] []) testGroupVersion "default/test" emptyRun).2
      "default" "test" (.notFound "test") (by rfl) (by rfl)).1,
    ((dropped_work (failingListerController (.other "timeout")) testGroupVersion "default/test"
      emptyRun).2 "default" "test" (.other "timeout") (by rfl) (by rfl)).1⟩

/-! ## The worker -/

theorem ContinuesOffQueue.refl {σ : Type} (s : Run σ) : ContinuesOffQueue s s :=
  ⟨[], by simp, by simp⟩

theorem ContinuesOffQueue.trans {σ : Type} {s t u : Run σ} (h1 : ContinuesOffQueue s t)
    (h2 : ContinuesOffQueue t u) : ContinuesOffQueue s u := by
  obtain ⟨l1, e1, q1⟩ := h1
  obtain ⟨l2, e2, q2⟩ := h2
  refine ⟨l1 ++ l2, by rw [e2, e1, List.append_assoc], ?_⟩
  intro x hx
  rcases List.mem_append.mp hx with h | h
  · exact q1 x h
  · exact q2 x h

theorem ContinuesOffQueue.step {σ : Type} (s : Run σ) (w : σ) (call : Call)
    (h : Call.isQueue call = false) :
    ContinuesOffQueue s { world := w, calls := s.calls ++ [call] } :=
  ⟨[call], rfl, by simpa using h⟩

theorem updateApplicationStatus_calls {σ : Type} (c : Controller σ) (app : Application)
    (deployment : Option Deployment) (s : Run σ) :
    ContinuesOffQueue s (updateApplicationStatus c app deployment s).2 := by
  unfold updateApplicationStatus
  cases deployment with
  | none => exact ContinuesOffQueue.refl s
  | some d =>
    simp only
    split
    · exact ContinuesOffQueue.step s _ _ rfl
    · exact ContinuesOffQueue.refl s

theorem syncFinish_calls {σ : Type} (c : Controller σ) (app : Application)
    (deployment : Option Deployment) (err : Option Error) (s : Run σ) :
    ContinuesOffQueue s (syncFinish c app deployment err s).run := by
  have hu := updateApplicationStatus_calls c app deployment s
  unfold syncFinish
  cases err with
  | some e => exact ContinuesOffQueue.refl s
  | none =>
    simp only
    rcases hr : updateApplicationStatus c app deployment s with ⟨r, s1⟩
    rw [hr] at hu
    rcases r with (_ | e) | _
    · exact hu.trans (ContinuesOffQueue.step s1 _ _ rfl)
    · exact hu
    · exact hu

theorem updateDeployment_calls {σ : Type} (c : Controller σ) (ns : String) (d : Deployment)
    (s : Run σ) : ContinuesOffQueue s (c.updateDeployment ns d s).2 :=
  ContinuesOffQueue.step s _ _ rfl

theorem createDeployment_calls {σ : Type} (c : Controller σ) (ns : String) (d : Deployment)
    (s : Run σ) : ContinuesOffQueue s (c.createDeployment ns d s).2 :=
  ContinuesOffQueue.step s _ _ rfl

theorem syncImage_calls {σ : Type} (c : Controller σ) (gv : GroupVersion) (app : Application)
    (deployment : Option Deployment) (err : Option Error) (s : Run σ) :
    ContinuesOffQueue s (syncImage c gv app deployment err s).run := by
  unfold syncImage
  cases deployment with
  | none => exact ContinuesOffQueue.refl s
  | some d =>
    simp only
    split
    · exact (updateDeployment_calls c _ _ s).trans (syncFinish_calls c app _ _ _)
    · exact syncFinish_calls c app _ _ _

theorem syncReplicas_calls {σ : Type} (c : Controller σ) (gv : GroupVersion) (app : Application)
    (deployment : Option Deployment) (err : Option Error) (s : Run σ) :
    ContinuesOffQueue s (syncReplicas c gv app deployment err s).run := by
  unfold syncReplicas
  rcases replicasDiffer app deployment with _ | b
  · exact ContinuesOffQueue.refl s
  · cases b with
    | true => exact (updateDeployment_calls c _ _ s).trans (syncImage_calls c gv app _ _ _)
    | false => exact syncImage_calls c gv app _ _ _

theorem SyncHandler_calls {σ : Type} (c : Controller σ) (gv : GroupVersion) (key : String)
    (s : Run σ) : ContinuesOffQueue s (SyncHandler c gv key s).run := by
  unfold SyncHandler
  rcases SplitMetaNamespaceKey key with m | ⟨ns, name⟩
  · exact ContinuesOffQueue.refl s
  · simp only
    have h1 : ContinuesOffQueue s (s.record (.GetApplication ns name)) :=
      ContinuesOffQueue.step s _ _ rfl
    rcases c.ApplicationsLister ns name with e | app
    · simp only
      split <;> exact h1
    · simp only
      have h2 := h1.trans (ContinuesOffQueue.step (s.record (.GetApplication ns name))
        (s.record (.GetApplication ns name)).world
        (.GetDeployment app.Status.DeploymentRefNamespace app.Status.DeploymentRefName) rfl)
      rcases c.DeploymentsLister app.Status.DeploymentRefNamespace
          app.Status.DeploymentRefName with e | d
      · simp only
        split
        · exact (h2.trans (createDeployment_calls c _ _ _)).trans
            (syncReplicas_calls c gv app _ _ _)
        · exact h2
      · exact h2.trans (syncReplicas_calls c gv app _ _ _)

/-- C7: when `Get` reports shutdown, `processNextWorkItem` returns false after
the `Get` alone, and that is the only way it returns false.  When `Get` hands
out a string key without shutdown, the calls are those of `SyncHandler key`
(none of them on the queue), then `AddRateLimited key` if it returned an error
or `Forget key` if it returned nil, then `Done key` last; in both cases the
result is true.  `Done key` is also the last call when `SyncHandler` panics. -/
theorem worker_retry_policy {σ : Type} (c : Controller σ) (gv : GroupVersion) (s : Run σ) :
    ((c.Get s.world).1.2 = true →
      processNextWorkItem c gv s =
        (.ret false, { world := (c.Get s.world).2, calls := s.calls ++ [.QueueGet] })) ∧
    ((processNextWorkItem c gv s).1 = .ret false ↔ (c.Get s.world).1.2 = true) ∧
    (∀ key, (c.Get s.world).1 = (.str key, false) →
      ∃ l, (∀ x ∈ l, Call.isQueue x = false) ∧
        (SyncHandler c gv key
          { world := (c.Get s.world).2, calls := s.calls ++ [.QueueGet] }).run.calls =
          s.calls ++ [.QueueGet] ++ l ∧
        (∀ e, (SyncHandler c gv key
            { world := (c.Get s.world).2, calls := s.calls ++ [.QueueGet] }).result =
            .ret (some e) →
          (processNextWorkItem c gv s).1 = .ret true ∧
          (processNextWorkItem c gv s).2.calls = s.calls ++ [.QueueGet] ++ l ++
            [.QueueAddRateLimited key, .QueueDone (.str key)]) ∧
        ((SyncHandler c gv key
            { world := (c.Get s.world).2, calls := s.calls ++ [.QueueGet] }).result =
            .ret none →
          (processNextWorkItem c gv s).1 = .ret true ∧
          (processNextWorkItem c gv s).2.calls = s.calls ++ [.QueueGet] ++ l ++
            [.QueueForget (.str key), .QueueDone (.str key)]) ∧
        ((SyncHandler c gv key
            { world := (c.Get s.world).2, calls := s.calls ++ [.QueueGet] }).result =
            .panic →
          (processNextWorkItem c gv s).1 = .panic ∧
          (processNextWorkItem c gv s).2.calls = s.calls ++ [.QueueGet] ++ l ++
            [.QueueDone (.str key)])) := by
  refine ⟨?_, ?_, ?_⟩
  · intro h
    simp [processNextWorkItem, h]
  · constructor
    · intro h
      by_contra hs
      have hs2 : (c.Get s.world).1.2 = false := by simpa using hs
      unfold processNextWorkItem at h
      simp only [hs2] at h
      rcases hobj : (c.Get s.world).1.1 with key | descr
      · simp only [hobj] at h
        rcases hres : (SyncHandler c gv key
            { world := (c.Get s.world).2, calls := s.calls ++ [.QueueGet] }).result
          with (_ | e) | _ <;> simp [hres] at h
      · simp [hobj] at h
    · intro h
      simp [processNextWorkItem, h]
  · intro key hget
    have h1 : (c.Get s.world).1.1 = .str key := by rw [hget]
    have h2 : (c.Get s.world).1.2 = false := by rw [hget]
    obtain ⟨l, hl, hq⟩ := SyncHandler_calls c gv key
      { world := (c.Get s.world).2, calls := s.calls ++ [.QueueGet] }
    refine ⟨l, hq, hl, ?_, ?_, ?_⟩
    · intro e he
      simp [processNextWorkItem, h1, h2, he, hl]
    · intro he
      simp [processNextWorkItem, h1, h2, he, hl]
    · intro he
      simp [processNextWorkItem, h1, h2, he, hl]

/-- C7 witness: an empty queue reports shutdown; the
pending key of a synced Application is reconciled and forgotten. -/
theorem worker_retry_policy_witness :
    processNextWorkItem (storingController [] []) testGroupVersion emptyRun =
        (.ret false, { world := emptyRun.world, calls := [.QueueGet] }) ∧
    (processNextWorkItem
      (storingController [syncedApplication "nginx" (some 1)]
        [NewDeployment testGroupVersion (syncedApplication "nginx" (some 1))])
      testGroupVersion (pendingRun (.str "default/test"))).1 = .ret true := by
  refine ⟨(worker_retry_policy (storingController [] []) testGroupVersion emptyRun).1 (by rfl),
    ?_⟩
  obtain ⟨l, _, _, _, hnil, _⟩ :=
    (worker_retry_policy
      (storingController [syncedApplication "nginx" (some 1)]
        [NewDeployment testGroupVersion (syncedApplication "nginx" (some 1))])
      testGroupVersion (pendingRun (.str "default/test"))).2.2 "default/test" (by rfl)
  exact (hnil (by decide)).1

/-! ## The event handlers -/

theorem length_pos_of_ne_empty (str : String) (h : str ≠ "") : str.length > 0 := by
  rcases str with ⟨data⟩
  cases data with
  | nil => exact absurd rfl h
  | cons ch rest => simp [String.length]

/-- C8: for an event object whose metadata has no controller owner reference,
or whose controller owner reference has a kind other than "Application",
`handleObject` changes nothing, whatever the caches hold: no lookup, no `Add`
call, the world as it was.  The same holds when the object arrives inside a
tombstone (Delete) and when it arrives as the new object of an Update. -/
theorem orphan_safety {σ : Type} (c : Controller σ) (obj : Obj) (object : ObjectMeta)
    (s : Run σ) (hobj : asObject obj = some object)
    (horphan : GetControllerOf object.OwnerReferences = none ∨
      ∃ ref, GetControllerOf object.OwnerReferences = some ref ∧ ref.Kind ≠ "Application") :
    handleObject c obj s = s ∧
    (∀ key, handleObject c (.tombstone key obj) s = s) ∧
    (∀ old new, obj = .deployment new →
      deploymentUpdateFunc c (.deployment old) obj s = some s) := by
  have howner : handleOwner c object s = s := by
    unfold handleOwner
    rcases horphan with h | ⟨ref, h, hk⟩
    · simp [h]
    · simp [h, hk]
  have h1 : handleObject c obj s = s := by
    simp [handleObject, hobj, howner]
  refine ⟨h1, ?_, ?_⟩
  · intro key
    have ht : asObject (Obj.tombstone key obj) = none := rfl
    simp [handleObject, ht, hobj, howner]
  · intro old new hnew
    subst hnew
    unfold deploymentUpdateFunc
    simp only
    split
    · rfl
    · rw [h1]

/-- C8 witness: a Deployment controlled by a ReplicaSet-like
owner of another kind, while an Application of the owner's name is cached. -/
theorem orphan_safety_witness :
    handleObject (storingController [newApplication "test" "nginx" (some 1)] [])
      (.deployment (ownedDeployment "test" [controllerRef "Other" "test"])) emptyRun =
      emptyRun :=
  (orphan_safety (storingController [newApplication "test" "nginx" (some 1)] [])
    (.deployment (ownedDeployment "test" [controllerRef "Other" "test"]))
    (ownedDeployment "test" [controllerRef "Other" "test"]).ObjectMeta emptyRun (by rfl)
    (Or.inr ⟨controllerRef "Other" "test", by rfl, by decide⟩)).1

/-- C9: for an event object whose controller owner reference has kind
"Application", `handleObject` looks the owner up by the object's namespace and
the reference's name; when the lister finds it, exactly one key is added, the
key of the found Application (`namespace/name`; the name alone when its
namespace is empty); when the lookup fails nothing is added.  A tombstone
wrapping an object is handled exactly as the object itself, and a tombstone
wrapping anything that is not an object changes nothing. -/
theorem owner_resolution {σ : Type} (c : Controller σ) (s : Run σ) :
    (∀ obj object ref, asObject obj = some object →
      GetControllerOf object.OwnerReferences = some ref → ref.Kind = "Application" →
      (∀ app, c.ApplicationsLister object.Namespace ref.Name = .ok app →
        (handleObject c obj s).calls = s.calls ++
          [ .GetApplication object.Namespace ref.Name,
            .QueueAdd (MetaNamespaceKey app.ObjectMeta) ] ∧
        (handleObject c obj s).world = c.Add (MetaNamespaceKey app.ObjectMeta) s.world ∧
        (app.ObjectMeta.Namespace ≠ "" →
          MetaNamespaceKey app.ObjectMeta =
            app.ObjectMeta.Namespace ++ "/" ++ app.ObjectMeta.Name) ∧
        (app.ObjectMeta.Namespace = "" →
          MetaNamespaceKey app.ObjectMeta = app.ObjectMeta.Name)) ∧
      (∀ e, c.ApplicationsLister object.Namespace ref.Name = .error e →
        (handleObject c obj s).calls = s.calls ++
          [.GetApplication object.Namespace ref.Name] ∧
        (handleObject c obj s).world = s.world)) ∧
    (∀ key obj object, asObject obj = some object →
      handleObject c (.tombstone key obj) s = handleObject c obj s) ∧
    (∀ key inner, asObject inner = none → handleObject c (.tombstone key inner) s = s) := by
  refine ⟨?_, ?_, ?_⟩
  · intro obj object ref hobj href hkind
    constructor
    · intro app happ
      have hk : MetaNamespaceKeyFunc (.application app) = .ok (MetaNamespaceKey app.ObjectMeta) :=
        rfl
      refine ⟨?_, ?_, ?_, ?_⟩
      · simp [handleObject, hobj, handleOwner, href, hkind, happ, enqueueApplication, hk,
          Run.record]
      · simp [handleObject, hobj, handleOwner, href, hkind, happ, enqueueApplication, hk,
          Run.record]
      · intro hne
        simp [MetaNamespaceKey, length_pos_of_ne_empty _ hne]
      · intro he
        simp [MetaNamespaceKey, he]
    · intro e happ
      simp [handleObject, hobj, handleOwner, href, hkind, happ, Run.record]
  · intro key obj object hobj
    have ht : asObject (Obj.tombstone key obj) = none := rfl
    simp [handleObject, ht, hobj]
  · intro key inner hinner
    have ht : asObject (Obj.tombstone key inner) = none := rfl
    simp [handleObject, ht, hinner]

/-- C9 witness: a Deployment controlled by the cached
Application `default/test`, delivered inside a tombstone. -/
theorem owner_resolution_witness :
    (handleObject (storingController [newApplication "test" "nginx" (some 1)] [])
      (.tombstone "default/test"
        (.deployment (ownedDeployment "test" [controllerRef "Application" "test"])))
      emptyRun).calls = [.GetApplication "default" "test", .QueueAdd "default/test"] := by
  have h := owner_resolution (storingController [newApplication "test" "nginx" (some 1)] [])
    emptyRun
  rw [h.2.1 "default/test"
    (.deployment (ownedDeployment "test" [controllerRef "Application" "test"]))
    (ownedDeployment "test" [controllerRef "Application" "test"]).ObjectMeta (by rfl)]
  exact ((h.1 (.deployment (ownedDeployment "test" [controllerRef "Application" "test"]))
    (ownedDeployment "test" [controllerRef "Application" "test"]).ObjectMeta
    (controllerRef "Application" "test") (by rfl) (by rfl) (by rfl)).1
    (newApplication "test" "nginx" (some 1)) (by rfl)).1

/-! ## The "main" container -/

theorem mainContainerLoop_absent (l : List Container) (h : ∀ y ∈ l, y.Name ≠ "main") :
    mainContainerLoop l = {} := by
  induction l with
  | nil => rfl
  | cons d rest ih =>
    have hd : d.Name ≠ "main" := h d (by simp)
    have hrest : ∀ y ∈ rest, y.Name ≠ "main" := fun y hy => h y (List.mem_cons_of_mem _ hy)
    simp [mainContainerLoop, hd, ih hrest]

theorem mainContainerLoop_first (pre post : List Container) (x : Container)
    (hpre : ∀ y ∈ pre, y.Name ≠ "main") (hx : x.Name = "main") :
    mainContainerLoop (pre ++ x :: post) = x := by
  induction pre with
  | nil => simp [mainContainerLoop, hx]
  | cons d rest ih =>
    have hd : d.Name ≠ "main" := hpre d (by simp)
    have hrest : ∀ y ∈ rest, y.Name ≠ "main" :=
      fun y hy => hpre y (List.mem_cons_of_mem _ hy)
    simp [mainContainerLoop, hd, ih hrest]

/-- C11 (as stated, refuted): an Application with the empty `ImageName` whose
recorded cached child has one container, not named "main", and the
Application's replica count.  The zero-value container has the empty image, the
image comparison sees no difference, and `SyncHandler` returns nil without any
update call. -/
theorem empty_image_no_update :
    (∀ y ∈ (sidecarDeployment (syncedApplication "" (some 1)) (some 1)).Spec.Template.Spec.Containers,
      y.Name ≠ "main") ∧
    (storingController [syncedApplication "" (some 1)]
      [sidecarDeployment (syncedApplication "" (some 1)) (some 1)]).DeploymentsLister
      "default" "test" = .ok (sidecarDeployment (syncedApplication "" (some 1)) (some 1)) ∧
    (SyncHandler
      (storingController [syncedApplication "" (some 1)]
        [sidecarDeployment (syncedApplication "" (some 1)) (some 1)])
      testGroupVersion "default/test" emptyRun).result = .ret none ∧
    (SyncHandler
      (storingController [syncedApplication "" (some 1)]
        [sidecarDeployment (syncedApplication "" (some 1)) (some 1)])
      testGroupVersion "default/test" emptyRun).run.calls =
      [ .GetApplication "default" "test",
        .GetDeployment "default" "test",
        .Event (syncedApplication "" (some 1)) EventTypeNormal SuccessSynced
          MessageResourceSynced ] ∧
    Call.UpdateDeployment "default"
        (NewDeployment testGroupVersion (syncedApplication "" (some 1))) ∉
      (SyncHandler
        (storingController [syncedApplication "" (some 1)]
          [sidecarDeployment (syncedApplication "" (some 1)) (some 1)])
        testGroupVersion "default/test" emptyRun).run.calls := by
  refine ⟨by decide, by rfl, by decide, by decide, by decide⟩

theorem syncImage_updates {σ : Type} (c : Controller σ) (gv : GroupVersion) (app : Application)
    (d : Deployment) (err : Option Error) (s : Run σ)
    (himg : app.Spec.ImageName ≠ (mainContainerFromDeploymentTemplate d).Image) :
    ∃ rest, (syncImage c gv app (some d) err s).run.calls = s.calls ++
      [.UpdateDeployment app.ObjectMeta.Namespace (NewDeployment gv app)] ++ rest := by
  obtain ⟨l, hl, _⟩ := syncFinish_calls c app
    (c.updateDeployment app.ObjectMeta.Namespace (NewDeployment gv app) s).1.1
    (c.updateDeployment app.ObjectMeta.Namespace (NewDeployment gv app) s).1.2
    (c.updateDeployment app.ObjectMeta.Namespace (NewDeployment gv app) s).2
  refine ⟨l, ?_⟩
  simp only [syncImage, himg, ne_eq, not_false_eq_true, if_true]
  rw [hl]
  rfl

theorem syncReplicas_updates {σ : Type} (c : Controller σ) (gv : GroupVersion)
    (app : Application) (deployment : Option Deployment) (err : Option Error) (s : Run σ)
    (hdiff : replicasDiffer app deployment = some true) :
    ∃ rest, (syncReplicas c gv app deployment err s).run.calls = s.calls ++
      [.UpdateDeployment app.ObjectMeta.Namespace (NewDeployment gv app)] ++ rest := by
  obtain ⟨l, hl, _⟩ := syncImage_calls c gv app
    (c.updateDeployment app.ObjectMeta.Namespace (NewDeployment gv app) s).1.1
    (c.updateDeployment app.ObjectMeta.Namespace (NewDeployment gv app) s).1.2
    (c.updateDeployment app.ObjectMeta.Namespace (NewDeployment gv app) s).2
  refine ⟨l, ?_⟩
  simp only [syncReplicas, hdiff]
  rw [hl]
  rfl

/-- C11 (amended): `mainContainerFromDeploymentTemplate` returns the first
container named "main", and the zero-value container when none has that name.
For an Application whose recorded cached child has no container named "main"
and has a replica count whenever the Application specifies one, if the
Application's `ImageName` is not empty (or its replica count differs from the
child's), the first call of `SyncHandler` after the two cache reads is an update
carrying `NewDeployment app`, whose only container is "main". -/
theorem missing_main_container {σ : Type} (c : Controller σ) (gv : GroupVersion) (s : Run σ) :
    (∀ (d : Deployment) pre x post, d.Spec.Template.Spec.Containers = pre ++ x :: post →
      (∀ y ∈ pre, y.Name ≠ "main") → x.Name = "main" →
      mainContainerFromDeploymentTemplate d = x) ∧
    (∀ d : Deployment, (∀ y ∈ d.Spec.Template.Spec.Containers, y.Name ≠ "main") →
      mainContainerFromDeploymentTemplate d = {}) ∧
    (∀ key ns name app d,
      SplitMetaNamespaceKey key = .ok (ns, name) →
      c.ApplicationsLister ns name = .ok app →
      c.DeploymentsLister app.Status.DeploymentRefNamespace
        app.Status.DeploymentRefName = .ok d →
      (∀ y ∈ d.Spec.Template.Spec.Containers, y.Name ≠ "main") →
      (app.Spec.Replicas = none ∨ ∃ got, d.Spec.Replicas = some got) →
      (app.Spec.ImageName ≠ "" ∨
        ∃ want got, app.Spec.Replicas = some want ∧ d.Spec.Replicas = some got ∧ want ≠ got) →
      (∃ rest, (SyncHandler c gv key s).run.calls = s.calls ++
        [ .GetApplication ns name,
          .GetDeployment app.Status.DeploymentRefNamespace app.Status.DeploymentRefName,
          .UpdateDeployment app.ObjectMeta.Namespace (NewDeployment gv app) ] ++ rest) ∧
      (NewDeployment gv app).Spec.Template.Spec.Containers =
        [{ Name := "main", Image := app.Spec.ImageName }] ∧
      (mainContainerFromDeploymentTemplate (NewDeployment gv app)).Name = "main") := by
  refine ⟨?_, ?_, ?_⟩
  · intro d pre x post hc hpre hx
    simp [mainContainerFromDeploymentTemplate, hc, mainContainerLoop_first pre post x hpre hx]
  · intro d hno
    simp [mainContainerFromDeploymentTemplate, mainContainerLoop_absent _ hno]
  · intro key ns name app d hkey happ hdep hno hrep hcause
    refine ⟨?_, rfl, by simp [mainContainerFromDeploymentTemplate, NewDeployment,
      mainContainerLoop]⟩
    have hzero : (mainContainerFromDeploymentTemplate d).Image = "" := by
      simp [mainContainerFromDeploymentTemplate, mainContainerLoop_absent _ hno]
    have hcases : replicasDiffer app (some d) = some true ∨
        (replicasDiffer app (some d) = some false ∧ app.Spec.ImageName ≠ "") := by
      unfold replicasDiffer
      rcases hr : app.Spec.Replicas with _ | want
      · right
        refine ⟨rfl, ?_⟩
        rcases hcause with h | ⟨w, g, hw, _, _⟩
        · exact h
        · rw [hr] at hw
          cases hw
      · rcases hrep with h | ⟨got, hgot⟩
        · rw [hr] at h
          cases h
        · by_cases hw : want = got
          · right
            refine ⟨by simp [hgot, hw], ?_⟩
            rcases hcause with h | ⟨w, g, hw2, hg2, hne⟩
            · exact h
            · rw [hr] at hw2
              rw [hgot] at hg2
              cases hw2
              cases hg2
              exact absurd hw hne
          · left
            simp [hgot, hw]
    simp only [SyncHandler, hkey, happ, hdep]
    rcases hcases with hdiff | ⟨hsame, himage⟩
    · obtain ⟨rest, hrest⟩ := syncReplicas_updates c gv app (some d) none
        ((s.record (.GetApplication ns name)).record
          (.GetDeployment app.Status.DeploymentRefNamespace app.Status.DeploymentRefName)) hdiff
      refine ⟨rest, ?_⟩
      rw [hrest]
      simp [Run.record]
    · have himg : app.Spec.ImageName ≠ (mainContainerFromDeploymentTemplate d).Image := by
        rw [hzero]
        exact himage
      obtain ⟨rest, hrest⟩ := syncImage_updates c gv app d none
        ((s.record (.GetApplication ns name)).record
          (.GetDeployment app.Status.DeploymentRefNamespace app.Status.DeploymentRefName)) himg
      refine ⟨rest, ?_⟩
      simp only [syncReplicas, hsame]
      rw [hrest]
      simp [Run.record]

/-- C11 witness: a cached child whose only container is a sidecar is updated
for the Application with image `nginx`; a child with a "main" container yields
that container. -/
theorem missing_main_container_witness :
    mainContainerFromDeploymentTemplate
        (driftedDeployment (syncedApplication "nginx" (some 1)) (some 1) "mysql") =
      { Name := "main", Image := "mysql" } ∧
    mainContainerFromDeploymentTemplate
        (sidecarDeployment (syncedApplication "nginx" (some 1)) (some 1)) = {} ∧
    ∃ rest, (SyncHandler
      (storingController [syncedApplication "nginx" (some 1)]
        [sidecarDeployment (syncedApplication "nginx" (some 1)) (some 1)])
      testGroupVersion "default/test" emptyRun).run.calls = emptyRun.calls ++
        [ .GetApplication "default" "test",
          .GetDeployment (syncedApplication "nginx" (some 1)).Status.DeploymentRefNamespace
            (syncedApplication "nginx" (some 1)).Status.DeploymentRefName,
          .UpdateDeployment (syncedApplication "nginx" (some 1)).ObjectMeta.Namespace
            (NewDeployment testGroupVersion (syncedApplication "nginx" (some 1))) ] ++ rest :=
  ⟨(missing_main_container (storingController [] []) testGroupVersion emptyRun).1
      (driftedDeployment (syncedApplication "nginx" (some 1)) (some 1) "mysql") []
      { Name := "main", Image := "mysql" } [] (by rfl) (by simp) (by rfl),
    (missing_main_container (storingController [] []) testGroupVersion emptyRun).2.1
      (sidecarDeployment (syncedApplication "nginx" (some 1)) (some 1)) (by decide),
    ((missing_main_container
      (storingController [syncedApplication "nginx" (some 1)]
        [sidecarDeployment (syncedApplication "nginx" (some 1)) (some 1)])
      testGroupVersion emptyRun).2.2 "default/test" "default" "test"
      (syncedApplication "nginx" (some 1))
      (sidecarDeployment (syncedApplication "nginx" (some 1)) (some 1))
      (by rfl) (by rfl) (by rfl) (by decide) (Or.inr ⟨1, by rfl⟩) (Or.inl (by decide))).1⟩

/-! ## The replica comparison -/

theorem unset_child_replicas_panic {σ : Type} (c : Controller σ) (gv : GroupVersion)
    (key ns name : String) (app : Application) (d : Deployment) (want : Int) (s : Run σ)
    (hkey : SplitMetaNamespaceKey key = .ok (ns, name))
    (happ : c.ApplicationsLister ns name = .ok app)
    (hdep : c.DeploymentsLister app.Status.DeploymentRefNamespace
      app.Status.DeploymentRefName = .ok d)
    (hwant : app.Spec.Replicas = some want)
    (hunset : d.Spec.Replicas = none) :
    (SyncHandler c gv key s).result = .panic ∧
    (SyncHandler c gv key s).run.calls = s.calls ++
      [ .GetApplication ns name,
        .GetDeployment app.Status.DeploymentRefNamespace app.Status.DeploymentRefName ] := by
  simp [SyncHandler, hkey, happ, hdep, syncReplicas, replicasDiffer, hwant, hunset, Run.record]

/-- C12 (the code at the failing input): the Application `default/test` asks for
one replica; its recorded cached child is the Deployment derived from the same
Application without a replica count.  Line 42 dereferences the child's unset
replica count: `SyncHandler` panics after the two cache reads and issues no
update.  The same happens right after a refused create that hands back an
empty Deployment. -/
theorem unset_replicas_nil_dereference :
    (NewDeployment testGroupVersion (syncedApplication "nginx" none)).Spec.Replicas = none ∧
    (SyncHandler
      (storingController [syncedApplication "nginx" (some 1)]
        [NewDeployment testGroupVersion (syncedApplication "nginx" none)])
      testGroupVersion "default/test" emptyRun).result = .panic ∧
    (SyncHandler
      (storingController [syncedApplication "nginx" (some 1)]
        [NewDeployment testGroupVersion (syncedApplication "nginx" none)])
      testGroupVersion "default/test" emptyRun).run.calls =
      [.GetApplication "default" "test", .GetDeployment "default" "test"] ∧
    (SyncHandler (createRefusingController [newApplication "test" "nginx" (some 1)] [])
      testGroupVersion "default/test" emptyRun).result = .panic ∧
    (SyncHandler (createRefusingController [newApplication "test" "nginx" (some 1)] [])
      testGroupVersion "default/test" emptyRun).run.calls =
      [ .GetApplication "default" "test",
        .GetDeployment "" "",
        .CreateDeployment "default"
          (NewDeployment testGroupVersion (newApplication "test" "nginx" (some 1))) ] := by
  refine ⟨by decide, by decide, by decide, by decide, by decide⟩

end DemoController
